import Mathlib

/-!
Verification of the nrf-mcp server core (TypeScript sources under
`src/nrf_mcp_ts/src/` and `src/unnamed/`): a shallow embedding of the
Process Runner (`tools/run.ts`), Output Formatter (`tools/run.ts`),
Environment Resolver (`config.ts`), the flash/build/get_build_info tool
handlers (`tools/flash.ts`, `tools/buildinfo.ts`) and the serial-port
preference heuristic (`findNordicPort`, `src/unnamed/part_001`).

Filesystem access (`existsSync`, `readdirSync`, `readFileSync`) is modelled
by explicit function parameters; child-process execution (`execFileSync`) by
an oracle mapping each `ExecutionRequest` to an `ExecOutcome`.  The platform
is fixed to posix (`IS_WIN = false`), matching the Linux/macOS deployment:
`path.join` is modelled for posix paths.
-/

namespace NrfMcp

/-- Model of Node's posix `path.join` on already-normalized segments:
empty segments are dropped and the rest are joined with `/`
(`join("", "bin", "west") = "bin/west"`). -/
def pjoin (parts : List String) : String :=
  String.intercalate "/" (parts.filter (fun p => p ≠ ""))

/-! ## config.ts — Environment Resolver -/

/-- Embedding of `autoDetectToolchain` (config.ts:21-38).  `fsExists` models
`existsSync`, `readdir` models `readdirSync`.  JS `Array.sort()` on strings
is modelled by `List.mergeSort` with the lexicographic order, and
`entries[entries.length - 1]` by `getLastD`. -/
def autoDetectToolchain (home : String) (fsExists : String → Bool)
    (readdir : String → List String) : Option String :=
  let ncsDir := pjoin [home, "ncs", "toolchains"]
  if fsExists ncsDir = false then none else
  let entries := (readdir ncsDir).filter (fun e =>
    fsExists (pjoin [ncsDir, e, "bin", "west"]) ||
    fsExists (pjoin [ncsDir, e, "bin", "west.exe"]) ||
    fsExists (pjoin [ncsDir, e, "usr", "local", "bin", "west"]))
  if entries.length = 0 then none
  else some (pjoin [ncsDir, (entries.mergeSort).getLastD ""])

/-- The filtered entry list of `autoDetectToolchain` (config.ts:27-32),
named so the characterization theorem can speak about it: the entries of
`<home>/ncs/toolchains/` containing a `west` executable at `bin/west`,
`bin/west.exe` or `usr/local/bin/west`. -/
def toolchainCandidates (home : String) (fsExists : String → Bool)
    (readdir : String → List String) : List String :=
  (readdir (pjoin [home, "ncs", "toolchains"])).filter (fun e =>
    fsExists (pjoin [pjoin [home, "ncs", "toolchains"], e, "bin", "west"]) ||
    fsExists (pjoin [pjoin [home, "ncs", "toolchains"], e, "bin", "west.exe"]) ||
    fsExists (pjoin [pjoin [home, "ncs", "toolchains"], e, "usr", "local", "bin", "west"]))

/-- Embedding of `findWest` (config.ts:58-67) for posix (`IS_WIN = false`,
so the `bin/west.exe` candidate is absent). -/
def findWest (toolchain : String) (fsExists : String → Bool) : String :=
  let candidates := [pjoin [toolchain, "usr", "local", "bin", "west"],
                     pjoin [toolchain, "bin", "west"]]
  (candidates.find? fsExists).getD (pjoin [toolchain, "bin", "west"])

/-- Embedding of `findNrfjprog` (config.ts:81-95) for posix (`ext = ""`). -/
def findNrfjprog (toolchain : String) (fsExists : String → Bool) : String :=
  let candidates := [pjoin [toolchain, "usr", "local", "bin", "nrfjprog"],
                     pjoin [toolchain, "bin", "nrfjprog"],
                     "/opt/nrf-command-line-tools/bin/nrfjprog",
                     "/usr/local/bin/nrfjprog",
                     "/Applications/Nordic Semiconductor/nrf-command-line-tools/bin/nrfjprog",
                     "C:\\Program Files\\Nordic Semiconductor\\nrf-command-line-tools\\bin\\nrfjprog.exe",
                     "C:\\Program Files (x86)\\Nordic Semiconductor\\nrf-command-line-tools\\bin\\nrfjprog.exe"]
  (candidates.find? fsExists).getD "nrfjprog"

/-- A string is a bare command name (resolved through PATH by the OS) iff it
contains no path separator. -/
def isBareName (s : String) : Bool :=
  !(s.toList.contains '/') && !(s.toList.contains '\\')

/-! ## tools/run.ts — Process Runner -/

/-- Embedding of the `RunResult` interface (run.ts:4-9).  The exit code is an
integer because the sentinel is `-1`. -/
structure RunResult where
  ok : Bool
  code : Int
  stdout : String
  stderr : String
deriving Repr, DecidableEq

/-- Outcome of `execFileSync` as observed by `run`'s `try`/`catch`: either a
clean exit carrying the child's stdout, or a thrown error object whose
optional fields are `status`, `stdout`, `stderr`, `message` (absent fields
modelled by `none`), together with the always-available `String(e)`
rendering. -/
inductive ExecOutcome where
  | success (stdout : String)
  | failure (status : Option Int) (stdout : Option String)
      (stderr : Option String) (message : Option String) (str : String)
deriving Repr, DecidableEq

/-- Embedding of `run` (run.ts:11-40): total over every `ExecOutcome`, the
`catch` branch translating the JS `??` chains with `Option.getD`. -/
def run (outcome : ExecOutcome) : RunResult :=
  match outcome with
  | .success out => { ok := true, code := 0, stdout := out, stderr := "" }
  | .failure status out err msg s =>
      { ok := false, code := status.getD (-1), stdout := out.getD "",
        stderr := err.getD (msg.getD s) }

/-! ## tools/run.ts — Output Formatter -/

/-- Model of JS `String.prototype.trim`: strip whitespace from both ends
(structural recursion over the character list, so that proofs can evaluate
it). -/
def jsTrim (s : String) : String :=
  String.mk (((s.data.dropWhile Char.isWhitespace).reverse.dropWhile
    Char.isWhitespace).reverse)

/-- Split a character list at every occurrence of `c`; `n` separators yield
`n + 1` (possibly empty) chunks, matching JS `split`. -/
def splitCharList (c : Char) : List Char → List (List Char)
  | [] => [[]]
  | x :: rest =>
    match splitCharList c rest with
    | [] => [[x]]
    | h :: t => if x = c then [] :: h :: t else (x :: h) :: t

/-- Model of JS `String.prototype.split` with a one-character separator. -/
def strSplitChar (c : Char) (s : String) : List String :=
  (splitCharList c s.data).map (fun l => String.mk l)

def MAX_LINES : Nat := 60

/-- Embedding of `truncate` (run.ts:44-52).  `keepTail = true` is the
`"tail"` policy (the default); JS `split("\n")`, `slice(-n)` and `slice(0,n)`
become `strSplitChar '\n'`, `drop (length - n)` and `take n`. -/
def truncate (text : String) (maxLines : Nat) (keepTail : Bool) : String :=
  let lines := strSplitChar '\n' text
  if lines.length ≤ maxLines then text
  else
    let omitted := lines.length - maxLines
    if keepTail then
      "... (" ++ toString omitted ++ " lines omitted) ...\n" ++
        String.intercalate "\n" (lines.drop (lines.length - maxLines))
    else
      String.intercalate "\n" (lines.take maxLines) ++
        "\n... (" ++ toString omitted ++ " lines omitted) ..."

/-- Embedding of `fmt` (run.ts:54-66).  JS string truthiness
(`if (result.stdout.trim())`) is the non-emptiness test. -/
def fmt (result : RunResult) (label : String) : String :=
  let status := if result.ok then "OK"
                else "FAILED (exit " ++ toString result.code ++ ")"
  let parts := ["=== " ++ label ++ ": " ++ status ++ " ==="]
  let parts := if jsTrim result.stdout = "" then parts
    else parts ++ [truncate (jsTrim result.stdout) (if result.ok then 20 else MAX_LINES) true]
  let parts := if jsTrim result.stderr = "" then parts
    else parts ++ ["--- stderr ---", truncate (jsTrim result.stderr) MAX_LINES true]
  String.intercalate "\n" parts

/-! ## tools/flash.ts — flash handler (and the sidecar board lookup) -/

/-- State of the sidecar file `<samplePath>/build/.vscode-nrf-connect.json`
as seen by `getBoardFromVsCode`: whether it exists, and if so the outcome of
`JSON.parse` — an error, or the parsed object's `board` field
(`none` for an absent or `null` field, matching `cfg.board ?? null`). -/
structure Sidecar where
  present : Bool
  parsed : Except String (Option String)
deriving Repr

/-- Embedding of `getBoardFromVsCode` (flash.ts:6-15): missing file, parse
error (`catch`) and missing `board` field all yield `none`. -/
def getBoardFromVsCode (fs : Sidecar) : Option String :=
  if fs.present = false then none
  else match fs.parsed with
  | .error _ => none
  | .ok b => b

/-- Model of the JS falsy test `!s` on a string-or-null value: true for
`null`/`undefined` and for the empty string.  Both board guards
(flash.ts:27-28) and the snr guard (flash.ts:41) are falsy tests, so an
empty string behaves like an absent value. -/
def isFalsy : Option String → Bool
  | none => true
  | some s => s = ""

/-- An `ExecutionRequest` records one `run(cmd, args, cwd, timeoutMs)`
invocation issued by a handler. -/
structure ExecutionRequest where
  cmd : String
  args : List String
  cwd : Option String
  timeoutMs : Nat
deriving Repr, DecidableEq

/-- Model of Node's posix `path.basename` on paths without trailing
separators: the last `/`-separated component. -/
def basename (p : String) : String :=
  (strSplitChar '/' p).getLastD ""

/-- Arguments of the `flash` tool (flash.ts:17-23): `sample_path`,
optional `board`, `build_first` (defaulted to `false` by `?? false`),
optional `snr`. -/
structure FlashArgs where
  samplePath : String
  board : Option String
  buildFirst : Bool
  snr : Option String
deriving Repr, DecidableEq

/-- The build-step request issued by `toolFlash` when `buildFirst` is set
(flash.ts:29-34). -/
def buildRequest (west : String) (board : String) (samplePath : String) :
    ExecutionRequest :=
  { cmd := west, args := ["build", "-b", board, "--build-dir", "build"],
    cwd := some samplePath, timeoutMs := 300000 }

/-- The flash request issued by `toolFlash` (flash.ts:40-43):
`flash --build-dir build`, then `if (snr) flashArgs.push("--snr", snr)` —
a falsy guard, so an empty-string serial appends nothing. -/
def flashRequest (west : String) (a : FlashArgs) : ExecutionRequest :=
  { cmd := west,
    args := ["flash", "--build-dir", "build"] ++
      (if isFalsy a.snr then [] else ["--snr", a.snr.getD ""]),
    cwd := some a.samplePath, timeoutMs := 120000 }

/-- Embedding of `toolFlash` (flash.ts:17-47).  `west` is the resolved
`WEST` binary, `fs` the sidecar state, `exec` the subprocess oracle.  The
second component is the list of subprocess invocations performed, in order
(empty on the no-board early return).  Both `if (!board)` guards are JS
falsy tests (`isFalsy`), so an empty-string board argument falls through to
the sidecar, and an empty-string resolved board takes the error path. -/
def toolFlash (west : String) (a : FlashArgs) (fs : Sidecar)
    (exec : ExecutionRequest → ExecOutcome) : String × List ExecutionRequest :=
  if a.buildFirst then
    let board := if isFalsy a.board then getBoardFromVsCode fs else a.board
    if isFalsy board then ("ERROR: No board specified for build step.", [])
    else
      let req := buildRequest west (board.getD "") a.samplePath
      let buildResult := run (exec req)
      let buildPart := fmt buildResult ("BUILD " ++ basename a.samplePath)
      if buildResult.ok = false then (buildPart, [req])
      else
        let freq := flashRequest west a
        let flashResult := run (exec freq)
        let flashPart := fmt flashResult ("FLASH " ++ basename a.samplePath)
        (String.intercalate "\n\n" [buildPart, flashPart], [req, freq])
  else
    let freq := flashRequest west a
    let flashResult := run (exec freq)
    let flashPart := fmt flashResult ("FLASH " ++ basename a.samplePath)
    (String.intercalate "\n\n" [flashPart], [freq])

/-- Arguments of the `build` tool: `sample_path`, optional `board`,
optional `pristine`. -/
structure BuildArgs where
  samplePath : String
  board : Option String
  pristine : Bool
deriving Repr, DecidableEq

/-- Modelled from the spec: `src/tools/build.ts` is not among the provided
sources (only its registration in the server entry point and its caller
appear).  Spec §4.5: `build` resolves `board` from the argument or the
sidecar file via the same rule as `flash`; if neither yields a board it
returns an error string instructing the caller to supply one and performs no
subprocess invocation; otherwise it invokes the build tool with
`build -b <board> --build-dir build` (optionally `--pristine`), working
directory `samplePath`, timeout 300 s, and formats the result.  The board
resolution uses the same JS falsy guards as `toolFlash`. -/
def toolBuild (west : String) (a : BuildArgs) (fs : Sidecar)
    (exec : ExecutionRequest → ExecOutcome) : String × List ExecutionRequest :=
  let board := if isFalsy a.board then getBoardFromVsCode fs else a.board
  if isFalsy board then
    ("ERROR: No board specified. Pass a board or build once with VS Code so build/.vscode-nrf-connect.json exists.", [])
  else
    let req : ExecutionRequest :=
      { cmd := west,
        args := ["build", "-b", board.getD "", "--build-dir", "build"] ++
          (if a.pristine then ["--pristine"] else []),
        cwd := some a.samplePath, timeoutMs := 300000 }
    let result := run (exec req)
    (fmt result ("BUILD " ++ basename a.samplePath), [req])

/-! ## tools/buildinfo.ts — get_build_info handler -/

/-- The three sidecar files visible to `toolGetBuildInfo`: `none` when the
file does not exist, `some c` for its raw contents. -/
structure BuildInfoFiles where
  vscodeJson : Option String
  buildInfoYml : Option String
  domainsYaml : Option String
deriving Repr, DecidableEq

/-- Embedding of `toolGetBuildInfo` (buildinfo.ts:4-34).  Note the source's
asymmetry: the first two files get a `NOT FOUND` section when missing, while
a missing `domains.yaml` contributes nothing (there is no `else` branch at
buildinfo.ts:27-31).  The handler performs no subprocess invocation, so the
request trace is always `[]`. -/
def toolGetBuildInfo (fs : BuildInfoFiles) : String × List ExecutionRequest :=
  let parts := (match fs.vscodeJson with
    | some c => ["=== .vscode-nrf-connect.json ===", c]
    | none => ["=== .vscode-nrf-connect.json: NOT FOUND ==="])
  let parts := parts ++ (match fs.buildInfoYml with
    | some c => ["=== build_info.yml ===", c]
    | none => ["=== build_info.yml: NOT FOUND ==="])
  let parts := parts ++ (match fs.domainsYaml with
    | some c => ["=== domains.yaml ===", c]
    | none => [])
  (String.intercalate "\n\n" parts, [])

/-- Number of positions in `hay` at which `needle` occurs, used to count the
"NOT FOUND" markers of a report. -/
def countOcc (needle : List Char) : List Char → Nat
  | [] => 0
  | c :: rest => (if needle.isPrefixOf (c :: rest) then 1 else 0) + countOcc needle rest

/-! ## src/unnamed/part_001 — serial-port preference heuristic -/

/-- A serial-port descriptor as used by `findNordicPort`: `path` plus the
optional `manufacturer`, `pnpId` and `vendorId` strings of the
`serialport` listing. -/
structure Port where
  path : String
  manufacturer : Option String
  pnpId : Option String
  vendorId : Option String
deriving Repr, DecidableEq

/-- Model of JS `String.prototype.includes`: substring containment. -/
def strIncludes (s sub : String) : Bool :=
  decide (sub.toList <:+: s.toList)

/-- The first-loop predicate of `findNordicPort` (part_001:8-16):
manufacturer or pnpId contains "Nordic", or vendorId is the Nordic USB VID
"1915".  JS optional chaining `p.manufacturer?.includes(...)` yields
`undefined` (falsy) when the field is absent. -/
def nordicPred (p : Port) : Bool :=
  (p.manufacturer.map (fun m => strIncludes m "Nordic")).getD false ||
  (p.pnpId.map (fun i => strIncludes i "Nordic")).getD false ||
  p.vendorId = some "1915"

/-- The second-loop predicate (part_001:19-23): path contains "ACM" or
"ttyUSB". -/
def usbPathPred (p : Port) : Bool :=
  strIncludes p.path "ACM" || strIncludes p.path "ttyUSB"

/-- The first for-loop of `findNordicPort`: return the first Nordic-matching
port's path. -/
def findNordicLoop : List Port → Option String
  | [] => none
  | p :: rest => if nordicPred p then some p.path else findNordicLoop rest

/-- The second for-loop of `findNordicPort`: return the first ACM/ttyUSB
port's path. -/
def findUsbLoop : List Port → Option String
  | [] => none
  | p :: rest => if usbPathPred p then some p.path else findUsbLoop rest

/-- Embedding of `findNordicPort` (part_001:4-26): two sequential
early-return loops, then `null`. -/
def findNordicPort (ports : List Port) : Option String :=
  match findNordicLoop ports with
  | some path => some path
  | none => findUsbLoop ports

/-- Spec-side description of the preferred-port search (spec §4.4, for the
refinement claim): the first port satisfying the vendor heuristic, failing
that the first port whose path matches a USB-serial naming pattern, failing
that none. -/
def findPreferredPortSpec (ports : List Port) : Option String :=
  match (ports.find? nordicPred).map Port.path with
  | some path => some path
  | none => (ports.find? usbPathPred).map Port.path

/-! ## Helper lemmas -/

/-- `String.intercalate.go acc s as` always extends `acc` on the right. -/
lemma intercalate_go_extends (as : List String) (acc s : String) :
    ∃ t, String.intercalate.go acc s as = acc ++ t := by
  induction as generalizing acc with
  | nil => exact ⟨"", by simp [String.intercalate.go]⟩
  | cons a as ih =>
    obtain ⟨t, ht⟩ := ih (acc ++ s ++ a)
    refine ⟨s ++ a ++ t, ?_⟩
    simp only [String.intercalate.go]
    rw [ht]
    simp [String.append_assoc]

/-- Intercalating a nonempty list starts with its head. -/
lemma intercalate_cons_extends (a s : String) (as : List String) :
    ∃ t, String.intercalate s (a :: as) = a ++ t := by
  simpa [String.intercalate] using intercalate_go_extends as a s

/-- Every output of the Formatter starts with the `"=== "` banner. -/
lemma fmt_starts_with_banner (r : RunResult) (l : String) :
    ∃ t, fmt r l = "=== " ++ t := by
  have key : ∀ rest : List String,
      ∃ t, String.intercalate "\n"
        (("=== " ++ l ++ ": " ++
          (if r.ok then "OK" else "FAILED (exit " ++ toString r.code ++ ")") ++ " ===") :: rest) =
        "=== " ++ t := by
    intro rest
    obtain ⟨t0, ht⟩ := intercalate_cons_extends _ "\n" rest
    refine ⟨l ++ ": " ++
      (if r.ok then "OK" else "FAILED (exit " ++ toString r.code ++ ")") ++ " ===" ++ t0, ?_⟩
    rw [ht]
    simp [String.append_assoc]
  unfold fmt
  by_cases h1 : jsTrim r.stdout = "" <;> by_cases h2 : jsTrim r.stderr = "" <;>
    simp only [h1, h2, if_true, if_false, ite_true, ite_false, List.cons_append,
      List.nil_append] <;>
    exact key _

/-- No Formatter output is the no-board error string. -/
lemma fmt_ne_no_board_error (r : RunResult) (l : String) :
    fmt r l ≠ "ERROR: No board specified for build step." := by
  obtain ⟨t, ht⟩ := fmt_starts_with_banner r l
  intro h
  rw [ht] at h
  have h0 : ("=== " ++ t).data.head? = some '=' := rfl
  rw [h] at h0
  exact absurd h0 (by decide)

/-! ## Claim theorems -/

/-- C1: the Process Runner `run` is total over every `execFileSync` outcome
(it never raises): a clean exit yields `ok = true`, `code = 0`, the captured
stdout and empty stderr; every thrown error (nonzero exit, timeout, spawn
failure) yields `ok = false`, `code` equal to the error's `status` or the
sentinel `-1` when absent, `stdout` equal to what was captured (empty if
none), and `stderr` the captured stderr, else the error message, else the
string rendering of the error. -/
theorem run_encodes_every_outcome (o : ExecOutcome) :
    ((run o).ok = true ↔ ∃ s, o = ExecOutcome.success s) ∧
    (∀ s, o = ExecOutcome.success s →
      run o = { ok := true, code := 0, stdout := s, stderr := "" }) ∧
    (∀ status out err msg s, o = ExecOutcome.failure status out err msg s →
      (run o).ok = false ∧ (run o).code = status.getD (-1) ∧
      (run o).stdout = out.getD "" ∧ (run o).stderr = err.getD (msg.getD s)) := by
  cases o <;> simp [run] <;> (intros; subst_vars; exact ⟨rfl, rfl, rfl⟩)

/-- C1 witness: a spawn failure (no status, no captured streams, only a
message) is encoded as `ok = false`, `code = -1`, empty stdout, and the
message as stderr. -/
theorem run_encodes_every_outcome_witness :
    (run (ExecOutcome.failure none none none (some "spawn ENOENT") "Error")).ok = false ∧
    (run (ExecOutcome.failure none none none (some "spawn ENOENT") "Error")).code = -1 ∧
    (run (ExecOutcome.failure none none none (some "spawn ENOENT") "Error")).stdout = "" ∧
    (run (ExecOutcome.failure none none none (some "spawn ENOENT") "Error")).stderr = "spawn ENOENT" := by
  have h := (run_encodes_every_outcome
    (ExecOutcome.failure none none none (some "spawn ENOENT") "Error")).2.2
    none none none (some "spawn ENOENT") "Error" rfl
  exact ⟨h.1, by simpa using h.2.1, by simpa using h.2.2.1, by simpa using h.2.2.2⟩

/-- The first loop of `findNordicPort` is the first match of `nordicPred`. -/
lemma findNordicLoop_eq_find (ports : List Port) :
    findNordicLoop ports = (ports.find? nordicPred).map Port.path := by
  induction ports with
  | nil => rfl
  | cons p rest ih =>
    by_cases h : nordicPred p <;> simp [findNordicLoop, List.find?_cons, h, ih]

/-- The second loop of `findNordicPort` is the first match of `usbPathPred`. -/
lemma findUsbLoop_eq_find (ports : List Port) :
    findUsbLoop ports = (ports.find? usbPathPred).map Port.path := by
  induction ports with
  | nil => rfl
  | cons p rest ih =>
    by_cases h : usbPathPred p <;> simp [findUsbLoop, List.find?_cons, h, ih]

/-- C9: the preferred-port search returns the path of the first port whose
manufacturer or pnpId contains "Nordic" or whose vendorId is "1915";
failing that, the path of the first port whose path contains "ACM" or
"ttyUSB"; failing that `none` — and on the empty port list it returns
`none` (it is a total function, so it never throws). -/
theorem findNordicPort_refines_preference_order :
    findNordicPort [] = none ∧
    ∀ ports : List Port, findNordicPort ports = findPreferredPortSpec ports := by
  refine ⟨rfl, fun ports => ?_⟩
  unfold findNordicPort findPreferredPortSpec
  rw [findNordicLoop_eq_find, findUsbLoop_eq_find]

/-- C10 counterexample: an empty-string serial is falsy in flash.ts:41, so
with `snr = some ""` the flash request is `flash --build-dir build` with no
`--snr` argument, although a serial was given. -/
theorem flashRequest_empty_snr_no_flag :
    (flashRequest "west" ⟨"/s", none, false, some ""⟩).args =
      ["flash", "--build-dir", "build"] ∧
    ¬ "--snr" ∈ (flashRequest "west" ⟨"/s", none, false, some ""⟩).args := by
  refine ⟨?_, ?_⟩ <;> decide

/-- C10 (amended): `toolFlash` without `buildFirst` ignores the `board`
argument and the sidecar file entirely: its output and its single
subprocess invocation (`flash --build-dir build`, with `--snr <serial>`
appended only when a non-empty serial is given — an empty-string serial is
falsy and appends nothing — cwd `samplePath`) are identical for any two
board arguments and sidecar states, and the "No board specified" error
string is never returned on this path. -/
theorem toolFlash_no_buildFirst_ignores_board (west sp : String)
    (snr : Option String) (b1 b2 : Option String) (fs1 fs2 : Sidecar)
    (exec : ExecutionRequest → ExecOutcome) :
    toolFlash west ⟨sp, b1, false, snr⟩ fs1 exec =
      toolFlash west ⟨sp, b2, false, snr⟩ fs2 exec ∧
    (toolFlash west ⟨sp, b1, false, snr⟩ fs1 exec).2 =
      [flashRequest west ⟨sp, b1, false, snr⟩] ∧
    (flashRequest west ⟨sp, b1, false, snr⟩).args =
      ["flash", "--build-dir", "build"] ++
        (if isFalsy snr then [] else ["--snr", snr.getD ""]) ∧
    (toolFlash west ⟨sp, b1, false, snr⟩ fs1 exec).1 ≠
      "ERROR: No board specified for build step." := by
  refine ⟨rfl, rfl, rfl, ?_⟩
  have h : (toolFlash west ⟨sp, b1, false, snr⟩ fs1 exec).1 =
      fmt (run (exec (flashRequest west ⟨sp, b1, false, snr⟩)))
        ("FLASH " ++ basename sp) := by
    simp [toolFlash, String.intercalate, String.intercalate.go]
  rw [h]
  exact fmt_ne_no_board_error _ _

/-- C4: when `buildFirst` is set and the build step fails, `toolFlash`
returns only the build step's formatted failure report and issues no flash
subprocess invocation (the trace is exactly the single build request). -/
theorem toolFlash_build_failure_short_circuits (west : String) (a : FlashArgs)
    (fs : Sidecar) (exec : ExecutionRequest → ExecOutcome) (b : String)
    (hbf : a.buildFirst = true)
    (hb : (if isFalsy a.board then getBoardFromVsCode fs else a.board) = some b)
    (hbne : b ≠ "")
    (hfail : (run (exec (buildRequest west b a.samplePath))).ok = false) :
    toolFlash west a fs exec =
      (fmt (run (exec (buildRequest west b a.samplePath)))
        ("BUILD " ++ basename a.samplePath),
       [buildRequest west b a.samplePath]) := by
  have hguard : isFalsy (some b) = false := by simp [isFalsy, hbne]
  simp only [toolFlash, hbf, ite_true, if_true]
  rw [hb, hguard]
  simp only [Bool.false_eq_true, if_false, Option.getD_some]
  rw [if_pos hfail]

/-- C4 witness: with a build oracle that exits 1, `toolFlash` with
`buildFirst` returns the build failure report alone and runs one process. -/
theorem toolFlash_build_failure_short_circuits_witness :
    toolFlash "west" ⟨"/s/app", some "brd", true, none⟩ ⟨false, Except.ok none⟩
        (fun _ => ExecOutcome.failure (some 1) (some "out") (some "err") none "E") =
      (fmt (run (ExecOutcome.failure (some 1) (some "out") (some "err") none "E"))
        "BUILD app",
       [buildRequest "west" "brd" "/s/app"]) := by
  have h := toolFlash_build_failure_short_circuits "west"
    ⟨"/s/app", some "brd", true, none⟩ ⟨false, Except.ok none⟩
    (fun _ => ExecOutcome.failure (some 1) (some "out") (some "err") none "E")
    "brd" rfl (by decide) (by decide) (by decide)
  rw [h]
  decide

/-- C5: when no explicit board is given and the sidecar file is missing,
malformed, or lacks a `board` field, both build-step handlers (`toolBuild`,
and `toolFlash` with `buildFirst`) return the board-must-be-supplied error
string with an empty subprocess trace — the parse error is swallowed, never
propagated. -/
theorem buildStep_no_board_error (west sp : String) (snr : Option String)
    (pristine : Bool) (fs : Sidecar) (exec : ExecutionRequest → ExecOutcome)
    (h : fs.present = false ∨ (∃ e, fs.parsed = Except.error e) ∨
      fs.parsed = Except.ok none) :
    toolFlash west ⟨sp, none, true, snr⟩ fs exec =
      ("ERROR: No board specified for build step.", []) ∧
    toolBuild west ⟨sp, none, pristine⟩ fs exec =
      ("ERROR: No board specified. Pass a board or build once with VS Code so build/.vscode-nrf-connect.json exists.", []) := by
  have hb : getBoardFromVsCode fs = none := by
    unfold getBoardFromVsCode
    rcases h with h | ⟨e, he⟩ | h
    · simp [h]
    · cases hp : fs.present <;> simp [hp, he]
    · cases hp : fs.present <;> simp [hp, h]
  exact ⟨by simp [toolFlash, isFalsy, hb], by simp [toolBuild, isFalsy, hb]⟩

/-- C5 witness: a present but malformed sidecar file yields the error
string and no subprocess, for both handlers. -/
theorem buildStep_no_board_error_witness :
    toolFlash "west" ⟨"/s", none, true, none⟩
        ⟨true, Except.error "Unexpected token"⟩ (fun _ => ExecOutcome.success "") =
      ("ERROR: No board specified for build step.", []) ∧
    toolBuild "west" ⟨"/s", none, false⟩
        ⟨true, Except.error "Unexpected token"⟩ (fun _ => ExecOutcome.success "") =
      ("ERROR: No board specified. Pass a board or build once with VS Code so build/.vscode-nrf-connect.json exists.", []) :=
  buildStep_no_board_error "west" "/s" none false
    ⟨true, Except.error "Unexpected token"⟩ (fun _ => ExecOutcome.success "")
    (Or.inr (Or.inl ⟨"Unexpected token", rfl⟩))

/-- C6 counterexample: a sidecar parsing to `{"board": ""}` carries a string
`board` field, but the JS falsy guard `if (!board)` treats the empty string
as missing: both build-step handlers return the no-board error and invoke
nothing, instead of invoking the build tool with `-b ""`. -/
theorem buildStep_empty_board_no_invocation :
    toolFlash "west" ⟨"/s", none, true, none⟩ ⟨true, Except.ok (some "")⟩
        (fun _ => ExecOutcome.success "") =
      ("ERROR: No board specified for build step.", []) ∧
    toolBuild "west" ⟨"/s", none, false⟩ ⟨true, Except.ok (some "")⟩
        (fun _ => ExecOutcome.success "") =
      ("ERROR: No board specified. Pass a board or build once with VS Code so build/.vscode-nrf-connect.json exists.", []) := by
  refine ⟨?_, ?_⟩ <;> decide

/-- C6 (amended): when the sidecar file parses to JSON with a non-empty
string `board` field and no explicit board argument is given, the build
step invokes the build tool with exactly that board: the first (and for
`toolBuild` only) request is `west build -b <board> --build-dir build` with
working directory `samplePath` and timeout 300 s.  (An empty-string board
field is falsy and is treated as missing.) -/
theorem buildStep_uses_sidecar_board (west sp b : String) (snr : Option String)
    (fs : Sidecar) (exec : ExecutionRequest → ExecOutcome)
    (hp : fs.present = true) (hj : fs.parsed = Except.ok (some b))
    (hbne : b ≠ "") :
    (toolFlash west ⟨sp, none, true, snr⟩ fs exec).2.head? =
      some (buildRequest west b sp) ∧
    (toolBuild west ⟨sp, none, false⟩ fs exec).2 = [buildRequest west b sp] ∧
    (buildRequest west b sp).args = ["build", "-b", b, "--build-dir", "build"] ∧
    (buildRequest west b sp).cwd = some sp ∧
    (buildRequest west b sp).timeoutMs = 300000 := by
  have hb : getBoardFromVsCode fs = some b := by
    simp [getBoardFromVsCode, hp, hj]
  refine ⟨?_, ?_, rfl, rfl, rfl⟩
  · cases hok : (run (exec (buildRequest west b sp))).ok <;>
      simp [toolFlash, isFalsy, hb, hbne, hok]
  · simp [toolBuild, isFalsy, hb, hbne, buildRequest]

/-- C6 witness: the sidecar board `nrf54l15dk/nrf54l15/cpuapp` is passed
through verbatim as the `-b` argument. -/
theorem buildStep_uses_sidecar_board_witness :
    (toolFlash "west" ⟨"/s", none, true, none⟩
        ⟨true, Except.ok (some "nrf54l15dk/nrf54l15/cpuapp")⟩
        (fun _ => ExecOutcome.success "ok")).2.head? =
      some (buildRequest "west" "nrf54l15dk/nrf54l15/cpuapp" "/s") ∧
    (buildRequest "west" "nrf54l15dk/nrf54l15/cpuapp" "/s").args =
      ["build", "-b", "nrf54l15dk/nrf54l15/cpuapp", "--build-dir", "build"] := by
  have h := buildStep_uses_sidecar_board "west" "/s" "nrf54l15dk/nrf54l15/cpuapp"
    none ⟨true, Except.ok (some "nrf54l15dk/nrf54l15/cpuapp")⟩
    (fun _ => ExecOutcome.success "ok") rfl rfl (by decide)
  exact ⟨h.1, h.2.2.1⟩

/-- C3 counterexample: with all three sidecar files missing,
`toolGetBuildInfo` returns only two "NOT FOUND" sections (its output splits
on "NOT FOUND" into 3 pieces, i.e. 2 occurrences, not the 3 occurrences the
claim asserts, which would split into 4 pieces) — a missing `domains.yaml`
contributes no section at all. -/
theorem toolGetBuildInfo_all_missing_two_markers :
    (toolGetBuildInfo ⟨none, none, none⟩).1 =
      "=== .vscode-nrf-connect.json: NOT FOUND ===\n\n=== build_info.yml: NOT FOUND ===" ∧
    countOcc "NOT FOUND".toList (toolGetBuildInfo ⟨none, none, none⟩).1.toList = 2 ∧
    ¬ countOcc "NOT FOUND".toList (toolGetBuildInfo ⟨none, none, none⟩).1.toList = 3 := by
  refine ⟨rfl, ?_, ?_⟩ <;> decide

/-- C3 amended: for every samplePath where none of the three sidecar files
exists, `get_build_info` returns exactly two "NOT FOUND" sections (for
`.vscode-nrf-connect.json` and `build_info.yml`; a missing `domains.yaml`
is silently omitted) and performs no process execution. -/
theorem toolGetBuildInfo_all_missing (fs : BuildInfoFiles)
    (h1 : fs.vscodeJson = none) (h2 : fs.buildInfoYml = none)
    (h3 : fs.domainsYaml = none) :
    toolGetBuildInfo fs =
      ("=== .vscode-nrf-connect.json: NOT FOUND ===\n\n=== build_info.yml: NOT FOUND ===",
       []) := by
  cases fs
  subst h1 h2 h3
  rfl

/-- C3 amended witness. -/
theorem toolGetBuildInfo_all_missing_witness :
    toolGetBuildInfo ⟨none, none, none⟩ =
      ("=== .vscode-nrf-connect.json: NOT FOUND ===\n\n=== build_info.yml: NOT FOUND ===",
       []) :=
  toolGetBuildInfo_all_missing ⟨none, none, none⟩ rfl rfl rfl

/-- C2 counterexample: with an empty toolchain and no candidate on disk,
`findWest` falls back to `join(toolchain, "bin", "west")`, i.e. the
relative path `"bin/west"`, which is not a bare command name — while
`findNrfjprog` does fall back to the bare name `"nrfjprog"`. -/
theorem findWest_fallback_not_bare :
    findWest "" (fun _ => false) = "bin/west" ∧
    isBareName "bin/west" = false ∧
    findNrfjprog "" (fun _ => false) = "nrfjprog" := by
  refine ⟨?_, ?_, ?_⟩ <;> decide

/-- C2 amended: for a ResolvedEnvironment with empty toolchain path and no
candidate location on disk, `findNrfjprog` falls back to the bare command
name `"nrfjprog"` (PATH-resolvable), while `findWest` falls back to the
default candidate `join(toolchain, "bin", "west")` — the relative, non-bare
path `"bin/west"` — which is never an empty string. -/
theorem fallback_binary_paths (fsE : String → Bool) (h : ∀ p, fsE p = false) :
    findNrfjprog "" fsE = "nrfjprog" ∧
    isBareName (findNrfjprog "" fsE) = true ∧
    findWest "" fsE = "bin/west" ∧
    findWest "" fsE ≠ "" := by
  have hfind : ∀ l : List String, l.find? fsE = none :=
    fun l => List.find?_eq_none.mpr (fun x _ => by simp [h x])
  have hn : findNrfjprog "" fsE = "nrfjprog" := by
    simp only [findNrfjprog, hfind, Option.getD_none]
  have hw : findWest "" fsE = "bin/west" := by
    simp only [findWest, hfind, Option.getD_none]
    rfl
  exact ⟨hn, by rw [hn]; rfl, hw, by rw [hw]; decide⟩

/-- The Formatter on a failed result with nonempty stdout and empty stderr:
banner plus tail-truncated stdout at the failure cap `MAX_LINES`. -/
lemma fmt_eq_of_fail (r : RunResult) (label : String) (hok : r.ok = false)
    (hne : jsTrim r.stdout ≠ "") (herr : jsTrim r.stderr = "") :
    fmt r label =
      String.intercalate "\n"
        ["=== " ++ label ++ ": " ++ ("FAILED (exit " ++ toString r.code ++ ")") ++ " ===",
         truncate (jsTrim r.stdout) MAX_LINES true] := by
  unfold fmt
  rw [hok, herr]
  simp [hne]

/-- The Formatter on a successful result with nonempty stdout and empty
stderr: banner plus tail-truncated stdout at the success cap 20. -/
lemma fmt_eq_of_ok (r : RunResult) (label : String) (hok : r.ok = true)
    (hne : jsTrim r.stdout ≠ "") (herr : jsTrim r.stderr = "") :
    fmt r label =
      String.intercalate "\n"
        ["=== " ++ label ++ ": " ++ "OK" ++ " ===",
         truncate (jsTrim r.stdout) 20 true] := by
  unfold fmt
  rw [hok, herr]
  simp [hne]

/-- C7: on a failed result whose (trimmed) stdout has 100 lines, the
Formatter's stdout body is exactly the last 60 of those lines prefixed by a
single "... (40 lines omitted) ..." marker line; in general, stdout within
the cap is passed through unchanged (no marker), and on success the tail
cap is 20 lines instead of 60. -/
theorem fmt_tail_truncation (r : RunResult) (label : String)
    (hok : r.ok = false)
    (h100 : (strSplitChar '\n' (jsTrim r.stdout)).length = 100)
    (herr : jsTrim r.stderr = "") :
    fmt r label =
      "=== " ++ label ++ ": " ++ ("FAILED (exit " ++ toString r.code ++ ")") ++
        " ===" ++ "\n" ++
        ("... (40 lines omitted) ...\n" ++
          String.intercalate "\n" ((strSplitChar '\n' (jsTrim r.stdout)).drop 40)) ∧
    ((strSplitChar '\n' (jsTrim r.stdout)).drop 40).length = 60 ∧
    (∀ (t : String) (n : Nat),
      (strSplitChar '\n' t).length ≤ n → truncate t n true = t) ∧
    (∀ (r2 : RunResult) (lb : String), r2.ok = true → jsTrim r2.stdout ≠ "" →
      jsTrim r2.stderr = "" →
      fmt r2 lb = "=== " ++ lb ++ ": " ++ "OK" ++ " ===" ++ "\n" ++
        truncate (jsTrim r2.stdout) 20 true) := by
  have hne : jsTrim r.stdout ≠ "" := by
    intro h
    rw [h] at h100
    simp [strSplitChar, splitCharList] at h100
  have hlt : ¬ ((strSplitChar '\n' (jsTrim r.stdout)).length ≤ MAX_LINES) := by
    rw [h100]
    simp [MAX_LINES]
  have h2 : truncate (jsTrim r.stdout) MAX_LINES true =
      "... (40 lines omitted) ...\n" ++
        String.intercalate "\n" ((strSplitChar '\n' (jsTrim r.stdout)).drop 40) := by
    simp only [truncate]
    rw [if_neg hlt]
    simp only [if_true]
    rw [h100]
    rfl
  refine ⟨?_, ?_, ?_, ?_⟩
  · rw [fmt_eq_of_fail r label hok hne herr, h2]
    rfl
  · rw [List.length_drop, h100]
  · intro t n h
    simp only [truncate]
    rw [if_pos h]
  · intro r2 lb h1 hn2 h3
    rw [fmt_eq_of_ok r2 lb h1 hn2 h3]
    rfl

set_option maxRecDepth 8000 in
/-- C7 witness: a concrete 100-line failing stdout is tail-truncated to the
last 60 lines behind the omitted-40 marker. -/
theorem fmt_tail_truncation_witness :
    fmt ⟨false, 1, String.intercalate "\n" (List.replicate 100 "x"), ""⟩ "BUILD app" =
      "=== BUILD app: FAILED (exit 1) ===\n... (40 lines omitted) ...\n" ++
        String.intercalate "\n" (List.replicate 60 "x") := by
  have h := fmt_tail_truncation
    ⟨false, 1, String.intercalate "\n" (List.replicate 100 "x"), ""⟩
    "BUILD app" rfl (by decide) (by decide)
  rw [h.1]
  decide

/-- A nonempty list's `getLastD` is a member. -/
lemma getLastD_mem_of_ne_nil {α : Type} (l : List α) (d : α) (h : l ≠ []) :
    l.getLastD d ∈ l := by
  cases l with
  | nil => exact absurd rfl h
  | cons a t =>
    rw [List.getLastD_cons]
    exact List.getLastD_mem_cons t a

/-- In a `≤`-sorted list every element is at most the last element. -/
lemma sorted_le_getLastD :
    ∀ (l : List String) (d : String), l.Sorted (· ≤ ·) →
      ∀ x ∈ l, x ≤ l.getLastD d := by
  intro l
  induction l with
  | nil => intro d _ x hx; simp at hx
  | cons a t ih =>
    intro d hs x hx
    rw [List.getLastD_cons]
    rcases List.mem_cons.mp hx with rfl | hxt
    · cases t with
      | nil => simp [List.getLastD]
      | cons b t2 =>
        exact (List.sorted_cons.mp hs).1 _
          (getLastD_mem_of_ne_nil (b :: t2) x (by simp))
    · exact ih _ (List.sorted_cons.mp hs).2 x hxt

/-- `autoDetectToolchain` written through `toolchainCandidates`. -/
lemma autoDetectToolchain_eq (home : String) (fsE : String → Bool)
    (readdir : String → List String) :
    autoDetectToolchain home fsE readdir =
      if fsE (pjoin [home, "ncs", "toolchains"]) = false then none
      else if (toolchainCandidates home fsE readdir).length = 0 then none
      else some (pjoin [pjoin [home, "ncs", "toolchains"],
        ((toolchainCandidates home fsE readdir).mergeSort).getLastD ""]) := rfl

/-- C8: toolchain auto-detection keeps exactly the entries of
`<home>/ncs/toolchains/` that contain a `west` executable at one of the
conventional sub-paths (`toolchainCandidates`); it returns `none` when the
directory is absent or no entry qualifies, and otherwise selects a
qualifying entry that is lexicographically greatest among them. -/
theorem autoDetectToolchain_characterization (home : String)
    (fsE : String → Bool) (readdir : String → List String) :
    (fsE (pjoin [home, "ncs", "toolchains"]) = false →
      autoDetectToolchain home fsE readdir = none) ∧
    (toolchainCandidates home fsE readdir = [] →
      autoDetectToolchain home fsE readdir = none) ∧
    (fsE (pjoin [home, "ncs", "toolchains"]) = true →
      toolchainCandidates home fsE readdir ≠ [] →
      ∃ m, m ∈ toolchainCandidates home fsE readdir ∧
        (∀ e ∈ toolchainCandidates home fsE readdir, e ≤ m) ∧
        autoDetectToolchain home fsE readdir =
          some (pjoin [pjoin [home, "ncs", "toolchains"], m])) := by
  refine ⟨?_, ?_, ?_⟩
  · intro h
    rw [autoDetectToolchain_eq, if_pos h]
  · intro h
    rw [autoDetectToolchain_eq]
    by_cases hf : fsE (pjoin [home, "ncs", "toolchains"]) = false
    · rw [if_pos hf]
    · rw [if_neg hf, if_pos (by rw [h]; rfl)]
  · intro hf hne
    have hperm : List.Perm ((toolchainCandidates home fsE readdir).mergeSort)
        (toolchainCandidates home fsE readdir) := List.mergeSort_perm _ _
    have hmsne : (toolchainCandidates home fsE readdir).mergeSort ≠ [] := by
      intro h0
      apply hne
      have hlen := hperm.length_eq
      rw [h0] at hlen
      exact List.eq_nil_of_length_eq_zero hlen.symm
    refine ⟨((toolchainCandidates home fsE readdir).mergeSort).getLastD "",
      hperm.mem_iff.mp (getLastD_mem_of_ne_nil _ _ hmsne), ?_, ?_⟩
    · intro e he
      exact sorted_le_getLastD _ "" (List.sorted_mergeSort' _) _
        (hperm.mem_iff.mpr he)
    · rw [autoDetectToolchain_eq, if_neg (by rw [hf]; simp),
        if_neg (by simpa using hne)]

/-- C8 witness: with only entry "b" qualifying, auto-detection returns
`<home>/ncs/toolchains/b`. -/
theorem autoDetectToolchain_characterization_witness :
    autoDetectToolchain "/h"
      (fun p => p == "/h/ncs/toolchains" || p == "/h/ncs/toolchains/b/bin/west")
      (fun _ => ["a", "b"]) = some "/h/ncs/toolchains/b" := by
  obtain ⟨m, hmem, hub, heq⟩ := (autoDetectToolchain_characterization "/h"
    (fun p => p == "/h/ncs/toolchains" || p == "/h/ncs/toolchains/b/bin/west")
    (fun _ => ["a", "b"])).2.2 (by decide) (by decide)
  have hc : toolchainCandidates "/h"
      (fun p => p == "/h/ncs/toolchains" || p == "/h/ncs/toolchains/b/bin/west")
      (fun _ => ["a", "b"]) = ["b"] := by decide
  rw [hc] at hmem
  rw [List.mem_singleton.mp hmem] at heq
  rw [heq]
  decide

/-- C2 amended witness. -/
theorem fallback_binary_paths_witness :
    findNrfjprog "" (fun _ => false) = "nrfjprog" ∧
    findWest "" (fun _ => false) = "bin/west" := by
  have h := fallback_binary_paths (fun _ => false) (fun _ => rfl)
  exact ⟨h.1, h.2.2.1⟩

end NrfMcp
